import Mathlib

/-!
Shallow embedding of the dual-store write synchronization engine of the
cumulus repository: the execution record builder, the requirement gate,
the conflict-aware relational upsert, the dual-store writer, the rule
batch synchronizer (src/packages/api/lambdas/sf-event-sqs-to-db-records/
write-rules.js) and the record lookup helpers (src/packages/db/src/
database.ts).  The write-execution module itself is not among the staged
source files; its behaviour is modelled from the specification, with the
repository's own test suite for it fixing every point the spec leaves
open or contradicts.
-/

namespace Cumulus

/-- Opaque JSON-ish values (payloads, task maps): this core never inspects
them, so a string stands in for them. -/
abbrev Payload := String

/-- Semantic version, modelled as a major/minor/patch triple. -/
abbrev SemVer := Nat × Nat × Nat

/-- Strict semantic-version ordering (lexicographic on major, minor, patch). -/
def semVerLt (a b : SemVer) : Bool :=
  Nat.blt a.1 b.1 ||
    (a.1 == b.1 && (Nat.blt a.2.1 b.2.1 ||
      (a.2.1 == b.2.1 && Nat.blt a.2.2 b.2.2)))

/-- The error object stored on a relational execution row: the event's
captured exception when present, otherwise an empty object (never null). -/
inductive ErrorObj where
  | emptyObject
  | exception (cause : String)
deriving DecidableEq

/-- Canonical event (cumulus message) fields that the execution write path
reads: identity, schema version, timing, status, payload and the optional
foreign references. -/
structure CumulusMessage where
  state_machine : String
  execution_name : String
  cumulus_version : SemVer
  workflow_start_time : Nat
  workflow_stop_time : Option Nat
  status : String
  workflow_name : String
  workflow_tasks : Payload
  payload : Payload
  exception : Option String
  asyncOperationId : Option String
  collectionNameVersion : Option (String × String)
  parentExecutionArn : Option String
deriving DecidableEq

/-- Modelled from the spec: the globally unique execution identifier is
derived from the state-machine identifier and the execution name. -/
def buildExecutionArn (stateMachine executionName : String) : String :=
  stateMachine ++ ":" ++ executionName

/-- Modelled from the spec: the execution url is a deterministic function
of the arn (console deep-link convention), recomputed every call. -/
def getExecutionUrl (arn : String) : String :=
  "https://console.aws.amazon.com/states/home?region=us-east-1" ++
    "#/executions/details/" ++ arn

/-- The normalized relational execution row. -/
structure ExecutionRecord where
  arn : String
  cumulus_version : SemVer
  status : String
  url : String
  workflow_name : String
  tasks : Payload
  error : ErrorObj
  duration : Nat
  original_payload : Option Payload
  final_payload : Option Payload
  created_at : Nat
  updated_at : Nat
  timestamp : Nat
  async_operation_cumulus_id : Option Nat
  collection_cumulus_id : Option Nat
  parent_cumulus_id : Option Nat
deriving DecidableEq

/-- Modelled from the spec: `buildExecutionRecord` of the missing
write-execution module.  Deterministic function from (event, resolved
references, clock) to a relational row: status copied verbatim, duration
in whole seconds when a stop time is present else 0, payload placed in
`original_payload` for the non-terminal `running` status and in
`final_payload` otherwise, error defaulting to an empty object,
`created_at` stamped from the event's workflow start time, `updated_at`
and `timestamp` from the clock, url derived from the arn, and surrogate
foreign keys copied verbatim. -/
def buildExecutionRecord (msg : CumulusMessage) (now : Nat)
    (asyncOperationCumulusId collectionCumulusId parentExecutionCumulusId : Option Nat) :
    ExecutionRecord :=
  let arn := buildExecutionArn msg.state_machine msg.execution_name
  { arn := arn
    cumulus_version := msg.cumulus_version
    status := msg.status
    url := getExecutionUrl arn
    workflow_name := msg.workflow_name
    tasks := msg.workflow_tasks
    error := match msg.exception with
      | some cause => .exception cause
      | none => .emptyObject
    duration := match msg.workflow_stop_time with
      | some stopTime => (stopTime - msg.workflow_start_time) / 1000
      | none => 0
    original_payload := if msg.status = "running" then some msg.payload else none
    final_payload := if msg.status = "running" then none else some msg.payload
    created_at := msg.workflow_start_time
    updated_at := now
    timestamp := now
    async_operation_cumulus_id := asyncOperationCumulusId
    collection_cumulus_id := collectionCumulusId
    parent_cumulus_id := parentExecutionCumulusId }

/-- Keyed lookup: the first row of the executions table whose arn matches. -/
def findExecution (arn : String) : List ExecutionRecord → Option ExecutionRecord
  | [] => none
  | r :: rest => if r.arn = arn then some r else findExecution arn rest

/-- Upsert keyed on arn: insert the record if no row has its arn, otherwise
replace the conflicting row by `merge` of it. -/
def upsertExec (merge : ExecutionRecord → ExecutionRecord)
    (record : ExecutionRecord) :
    List ExecutionRecord → List ExecutionRecord
  | [] => [record]
  | r :: rest =>
    if r.arn = record.arn then merge r :: rest
    else r :: upsertExec merge record rest

/-- The restricted running-conflict merge: only the payload and the three
timestamps (`created_at`, `updated_at`, `timestamp`) are taken from the
incoming record; every other column, status, url and workflow name
included, keeps the existing row's value. -/
def mergeRunning (existing incoming : ExecutionRecord) : ExecutionRecord :=
  { existing with
    original_payload := incoming.original_payload
    created_at := incoming.created_at
    updated_at := incoming.updated_at
    timestamp := incoming.timestamp }

/-- Modelled from the spec: `writeRunningExecutionViaTransaction` of the
missing write-execution module.  Upsert that, on conflict, updates only
the restricted field set (payload and timestamps) per the merge policy
for incoming `running` events. -/
def writeRunningExecutionViaTransaction (executionRecord : ExecutionRecord)
    (table : List ExecutionRecord) : List ExecutionRecord :=
  upsertExec (fun existing => mergeRunning existing executionRecord)
    executionRecord table

/-- Modelled from the spec: `writeExecutionViaTransaction` of the missing
write-execution module.  Builds the record from the event; an incoming
`running` record goes through the restricted running upsert, any other
status performs a full-overwrite upsert. -/
def writeExecutionViaTransaction (msg : CumulusMessage) (now : Nat)
    (asyncOperationCumulusId collectionCumulusId parentExecutionCumulusId : Option Nat)
    (table : List ExecutionRecord) : List ExecutionRecord :=
  let record := buildExecutionRecord msg now asyncOperationCumulusId
    collectionCumulusId parentExecutionCumulusId
  if record.status = "running" then
    writeRunningExecutionViaTransaction record table
  else
    upsertExec (fun _ => record) record table

/-- Outcome of one dual-store write: the relational table after the call,
how many times the document-store collaborator was invoked, and the value
or error returned to the caller. -/
structure WriteOutcome where
  rds : List ExecutionRecord
  docStoreCalls : Nat
  result : Except String Unit

/-- Modelled from the spec: `writeExecution` of the missing
write-execution module.  The repository's own tests (and the parallel
`writeRule` implementation in write-rules.js) fix the ordering: both the
relational write and the document-store write run inside one relational
transaction, the document-store write after the relational step.  A
relational failure aborts the transaction before the document store is
ever invoked; a document-store failure after the relational step rolls
the transaction back, so the relational row does not persist, and the
error is propagated.  Failures of the two collaborators are injected as
the two `Option String` parameters. -/
def writeExecution (msg : CumulusMessage) (now : Nat)
    (asyncOperationCumulusId collectionCumulusId parentExecutionCumulusId : Option Nat)
    (rdsFailure docStoreFailure : Option String)
    (table : List ExecutionRecord) : WriteOutcome :=
  match rdsFailure with
  | some e => { rds := table, docStoreCalls := 0, result := .error e }
  | none =>
    let written := writeExecutionViaTransaction msg now asyncOperationCumulusId
      collectionCumulusId parentExecutionCumulusId table
    match docStoreFailure with
    | some e => { rds := table, docStoreCalls := 1, result := .error e }
    | none => { rds := written, docStoreCalls := 1, result := .ok () }

/-- Errors of the requirement gate: missing migration-boundary
configuration, or unmet preconditions for the relational write. -/
inductive WriteError where
  | missingRequiredEnvVar
  | unmetRequirements (reference : String)
deriving DecidableEq

/-- Modelled from the spec: resolution of one reference declared in the
event.  A reference absent from the event is omitted (not an error); a
declared reference that fails to resolve is an `unmetRequirements`
error naming it. -/
def resolveRequired (declared : Option String) (lookup : String → Option Nat) :
    Except WriteError (Option Nat) :=
  match declared with
  | none => .ok none
  | some key =>
    match lookup key with
    | none => .error (.unmetRequirements key)
    | some cumulusId => .ok (some cumulusId)

/-- Modelled from the spec: `getWriteExecutionRequirements` of the missing
write-execution module.  Missing boundary configuration is a fatal
`missingRequiredEnvVar`; an event whose schema version is strictly below
the boundary fails with `unmetRequirements`; a collection declared in the
event whose resolution is absent fails; the async-operation and
parent-execution references are resolved through the injected lookups and
fail when declared but unresolved; otherwise the resolved surrogate ids
are returned, absent references staying absent. -/
def getWriteExecutionRequirements
    (rdsDeploymentVersion : Option SemVer)
    (messageVersion : SemVer)
    (messageCollectionNameVersion : Option (String × String))
    (collectionCumulusId : Option Nat)
    (asyncOperationId parentExecutionArnRef : Option String)
    (asyncOperationLookup parentExecutionLookup : String → Option Nat) :
    Except WriteError (Option Nat × Option Nat) :=
  match rdsDeploymentVersion with
  | none => .error .missingRequiredEnvVar
  | some boundary =>
    if semVerLt messageVersion boundary then
      .error (.unmetRequirements "pre-migration event")
    else if messageCollectionNameVersion.isSome && collectionCumulusId.isNone then
      .error (.unmetRequirements "collection")
    else
      match resolveRequired asyncOperationId asyncOperationLookup with
      | .error e => .error e
      | .ok asyncOperationCumulusId =>
        match resolveRequired parentExecutionArnRef parentExecutionLookup with
        | .error e => .error e
        | .ok parentExecutionCumulusId =>
          .ok (asyncOperationCumulusId, parentExecutionCumulusId)

/-- A dependent rule extracted from an event. -/
structure Rule where
  name : String
deriving DecidableEq

/-- One rule's write (write-rules.js `writeRule`): its own relational
transaction inserts the rule's name, then the document-store write runs
inside the same transaction; any failure (injected as the `Option
String`) rolls the whole item back, leaving the relational rules table
unchanged for this item. -/
def writeRuleTx (rule : Rule) (failure : Option String)
    (rdsRules : List String) : Except String (List String) :=
  match failure with
  | some e => .error e
  | none => .ok (rdsRules ++ [rule.name])

/-- All items of a batch are processed with no early termination (the
`Promise.allSettled` of write-rules.js `writeRules`): each item's
transaction sees the table as left by the previous items, a failed item
leaves the table untouched, and the per-item outcomes are collected in
order. -/
def writeRulesAux : List (Rule × Option String) → List String →
    List String × List (Except String Rule)
  | [], rdsRules => (rdsRules, [])
  | (rule, failure) :: rest, rdsRules =>
    match writeRuleTx rule failure rdsRules with
    | .error e =>
      let out := writeRulesAux rest rdsRules
      (out.1, .error e :: out.2)
    | .ok rdsRules2 =>
      let out := writeRulesAux rest rdsRules2
      (out.1, .ok rule :: out.2)

/-- The failure reasons among a batch's outcomes, in order. -/
def ruleFailures (outcomes : List (Except String Rule)) : List String :=
  outcomes.filterMap (fun o => match o with
    | .error e => some e
    | .ok _ => none)

/-- write-rules.js `writeRules`: run every item, then either return the
per-item results (all fulfilled) or raise a single aggregate error
wrapping exactly the failed items' reasons, while the successful items'
writes remain in the table. -/
def writeRules (items : List (Rule × Option String)) (rdsRules : List String) :
    List String × Except (List String) (List (Except String Rule)) :=
  let out := writeRulesAux items rdsRules
  let failures := ruleFailures out.2
  (out.1, if failures.isEmpty then .ok out.2 else .error failures)

/-- A generic relational row as seen by database.ts: its surrogate id and
its named column values. -/
structure DbRow where
  cumulus_id : Nat
  attrs : List (String × String)
deriving DecidableEq

/-- database.ts error kind. -/
inductive DbError where
  | recordDoesNotExist (message : String)
deriving DecidableEq

/-- A knex `.where(params)` predicate: every key/value pair of the where
clause matches the row's column of that name. -/
def matchesWhere (whereClause : List (String × String)) (row : DbRow) : Bool :=
  whereClause.all (fun kv => row.attrs.lookup kv.1 == some kv.2)

/-- database.ts `isRecordDefined`: the record is not undefined. -/
def isRecordDefined (record : Option DbRow) : Bool :=
  record.isSome

/-- database.ts `doesRecordExist`: whether a row matching the params
exists, as a boolean (`.first()` then `isRecordDefined`). -/
def doesRecordExist (params : List (String × String)) (rows : List DbRow) : Bool :=
  isRecordDefined (rows.find? (matchesWhere params))

/-- database.ts `getRecordCumulusId`: the first row matching the where
clause yields its cumulus_id; no matching row raises
`RecordDoesNotExist`. -/
def getRecordCumulusId (whereClause : List (String × String)) (table : String)
    (rows : List DbRow) : Except DbError Nat :=
  match rows.find? (matchesWhere whereClause) with
  | none => .error (.recordDoesNotExist table)
  | some record => .ok record.cumulus_id

/-- Concrete event: a first `running` event for the demo execution. -/
def msgDemoA : CumulusMessage :=
  { state_machine := "sm-demo"
    execution_name := "exec-demo"
    cumulus_version := (4, 0, 0)
    workflow_start_time := 1000
    workflow_stop_time := none
    status := "running"
    workflow_name := "WorkflowOne"
    workflow_tasks := "tasks-a"
    payload := "payload-a"
    exception := none
    asyncOperationId := none
    collectionNameVersion := none
    parentExecutionArn := none }

/-- Concrete event: a later `running` event for the same execution with a
different start time, payload and workflow name. -/
def msgDemoB : CumulusMessage :=
  { msgDemoA with
    workflow_start_time := 2000
    payload := "payload-b"
    workflow_name := "WorkflowTwo"
    workflow_tasks := "tasks-b" }

/-- Concrete event: a `completed` event for the same execution. -/
def msgDemoCompleted : CumulusMessage :=
  { msgDemoA with
    status := "completed"
    workflow_start_time := 1500
    workflow_stop_time := some 6500
    payload := "payload-c" }

/-- The demo execution's arn. -/
def demoArn : String :=
  buildExecutionArn "sm-demo" "exec-demo"

/-- Concrete event with a stop time 5000 ms after its start time. -/
def msgDemoStop : CumulusMessage :=
  { msgDemoA with
    status := "completed"
    workflow_stop_time := some 6000 }

/-- Concrete existing row for the restricted-merge claim: first write's
url and workflow name. -/
def recDemoU1 : ExecutionRecord :=
  { arn := "arn-1"
    cumulus_version := (4, 0, 0)
    status := "running"
    url := "u1"
    workflow_name := "n1"
    tasks := "tasks-1"
    error := .emptyObject
    duration := 0
    original_payload := some "p1"
    final_payload := none
    created_at := 1
    updated_at := 1
    timestamp := 1
    async_operation_cumulus_id := none
    collection_cumulus_id := none
    parent_cumulus_id := none }

/-- Concrete incoming row for the restricted-merge claim: second write's
url, workflow name, payload and timestamps. -/
def recDemoU2 : ExecutionRecord :=
  { recDemoU1 with
    url := "u2"
    workflow_name := "n2"
    original_payload := some "p2"
    created_at := 2
    updated_at := 2
    timestamp := 2 }

@[simp]
theorem buildExecutionRecord_status (msg : CumulusMessage) (now : Nat)
    (aid cid pid : Option Nat) :
    (buildExecutionRecord msg now aid cid pid).status = msg.status := rfl

@[simp]
theorem buildExecutionRecord_arn (msg : CumulusMessage) (now : Nat)
    (aid cid pid : Option Nat) :
    (buildExecutionRecord msg now aid cid pid).arn
      = buildExecutionArn msg.state_machine msg.execution_name := rfl

@[simp]
theorem buildExecutionRecord_created_at (msg : CumulusMessage) (now : Nat)
    (aid cid pid : Option Nat) :
    (buildExecutionRecord msg now aid cid pid).created_at
      = msg.workflow_start_time := rfl

theorem findExecution_arn (arn : String) (table : List ExecutionRecord)
    (r : ExecutionRecord) (h : findExecution arn table = some r) :
    r.arn = arn := by
  induction table with
  | nil => simp [findExecution] at h
  | cons r0 rest ih =>
    by_cases h0 : r0.arn = arn
    · simp only [findExecution, if_pos h0] at h
      obtain rfl : r0 = r := by simpa using h
      exact h0
    · simp only [findExecution, if_neg h0] at h
      exact ih h

theorem findExecution_upsertExec (merge : ExecutionRecord → ExecutionRecord)
    (record : ExecutionRecord) (table : List ExecutionRecord)
    (r : ExecutionRecord) (hmerge : (merge r).arn = record.arn)
    (hfind : findExecution record.arn table = some r) :
    findExecution record.arn (upsertExec merge record table) = some (merge r) := by
  induction table with
  | nil => simp [findExecution] at hfind
  | cons r0 rest ih =>
    by_cases h : r0.arn = record.arn
    · simp only [findExecution, if_pos h] at hfind
      obtain rfl : r0 = r := by simpa using hfind
      simp [upsertExec, if_pos h, findExecution, hmerge]
    · simp only [findExecution, if_neg h] at hfind
      simp [upsertExec, if_neg h, findExecution, h, ih hfind]

theorem writeExecutionViaTransaction_running (msg : CumulusMessage) (now : Nat)
    (aid cid pid : Option Nat) (table : List ExecutionRecord)
    (hrun : msg.status = "running") :
    writeExecutionViaTransaction msg now aid cid pid table
      = writeRunningExecutionViaTransaction
          (buildExecutionRecord msg now aid cid pid) table := by
  simp [writeExecutionViaTransaction, hrun]

theorem writeExecutionViaTransaction_notRunning (msg : CumulusMessage) (now : Nat)
    (aid cid pid : Option Nat) (table : List ExecutionRecord)
    (hterm : msg.status ≠ "running") :
    writeExecutionViaTransaction msg now aid cid pid table
      = upsertExec (fun _ => buildExecutionRecord msg now aid cid pid)
          (buildExecutionRecord msg now aid cid pid) table := by
  simp [writeExecutionViaTransaction, hterm]

/-- C1: if the existing relational row for an arn has a terminal status,
a subsequent write for that arn carrying status `running` leaves the
row's status unchanged at the terminal value. -/
theorem writeExecution_monotonic_terminal (msg : CumulusMessage) (now : Nat)
    (aid cid pid : Option Nat) (table : List ExecutionRecord)
    (r : ExecutionRecord)
    (hfind : findExecution (buildExecutionArn msg.state_machine msg.execution_name)
      table = some r)
    (hterm : r.status ≠ "running")
    (hrun : msg.status = "running") :
    ∃ r2,
      findExecution (buildExecutionArn msg.state_machine msg.execution_name)
        (writeExecutionViaTransaction msg now aid cid pid table) = some r2
      ∧ r2.status = r.status := by
  refine ⟨mergeRunning r (buildExecutionRecord msg now aid cid pid), ?_, rfl⟩
  rw [writeExecutionViaTransaction_running msg now aid cid pid table hrun]
  exact findExecution_upsertExec
    (fun existing => mergeRunning existing (buildExecutionRecord msg now aid cid pid))
    (buildExecutionRecord msg now aid cid pid) table r
    (findExecution_arn _ table r hfind) hfind

/-- C1 witness: writing `completed` then `running` for the demo arn
leaves status `completed`. -/
theorem writeExecution_monotonic_terminal_witness :
    (∃ r2,
      findExecution (buildExecutionArn msgDemoB.state_machine msgDemoB.execution_name)
        (writeExecutionViaTransaction msgDemoB 20 none none none
          (writeExecutionViaTransaction msgDemoCompleted 10 none none none []))
        = some r2
      ∧ r2.status = (buildExecutionRecord msgDemoCompleted 10 none none none).status)
    ∧ (buildExecutionRecord msgDemoCompleted 10 none none none).status = "completed" :=
  ⟨writeExecution_monotonic_terminal msgDemoB 20 none none none
    (writeExecutionViaTransaction msgDemoCompleted 10 none none none [])
    (buildExecutionRecord msgDemoCompleted 10 none none none)
    (by decide) (by decide) rfl, rfl⟩

/-- C4: on a running-conflict for an arn, only payload and the three
timestamps are taken from the incoming record; url, workflow name,
status and every other column keep the existing row's values. -/
theorem writeRunning_restricted_merge (incoming : ExecutionRecord)
    (table : List ExecutionRecord) (r : ExecutionRecord)
    (hrun : incoming.status = "running")
    (hfind : findExecution incoming.arn table = some r) :
    ∃ r2,
      findExecution incoming.arn
        (writeRunningExecutionViaTransaction incoming table) = some r2
      ∧ r2.url = r.url
      ∧ r2.workflow_name = r.workflow_name
      ∧ r2.status = r.status
      ∧ r2.arn = r.arn
      ∧ r2.error = r.error
      ∧ r2.duration = r.duration
      ∧ r2.tasks = r.tasks
      ∧ r2.final_payload = r.final_payload
      ∧ r2.cumulus_version = r.cumulus_version
      ∧ r2.async_operation_cumulus_id = r.async_operation_cumulus_id
      ∧ r2.collection_cumulus_id = r.collection_cumulus_id
      ∧ r2.parent_cumulus_id = r.parent_cumulus_id
      ∧ r2.original_payload = incoming.original_payload
      ∧ r2.created_at = incoming.created_at
      ∧ r2.updated_at = incoming.updated_at
      ∧ r2.timestamp = incoming.timestamp := by
  refine ⟨mergeRunning r incoming, ?_, rfl, rfl, rfl, rfl, rfl, rfl, rfl, rfl,
    rfl, rfl, rfl, rfl, rfl, rfl, rfl, rfl⟩
  exact findExecution_upsertExec (fun existing => mergeRunning existing incoming)
    incoming table r (findExecution_arn _ table r hfind) hfind

/-- C4 witness: a second `running` write with url=u2/name=n2 over a row
with url=u1/name=n1 keeps u1 and n1 while taking the second write's
payload and timestamps. -/
theorem writeRunning_restricted_merge_witness :
    (∃ r2,
      findExecution recDemoU2.arn
        (writeRunningExecutionViaTransaction recDemoU2 [recDemoU1]) = some r2
      ∧ r2.url = recDemoU1.url
      ∧ r2.workflow_name = recDemoU1.workflow_name
      ∧ r2.status = recDemoU1.status
      ∧ r2.arn = recDemoU1.arn
      ∧ r2.error = recDemoU1.error
      ∧ r2.duration = recDemoU1.duration
      ∧ r2.tasks = recDemoU1.tasks
      ∧ r2.final_payload = recDemoU1.final_payload
      ∧ r2.cumulus_version = recDemoU1.cumulus_version
      ∧ r2.async_operation_cumulus_id = recDemoU1.async_operation_cumulus_id
      ∧ r2.collection_cumulus_id = recDemoU1.collection_cumulus_id
      ∧ r2.parent_cumulus_id = recDemoU1.parent_cumulus_id
      ∧ r2.original_payload = recDemoU2.original_payload
      ∧ r2.created_at = recDemoU2.created_at
      ∧ r2.updated_at = recDemoU2.updated_at
      ∧ r2.timestamp = recDemoU2.timestamp)
    ∧ recDemoU1.url = "u1" ∧ recDemoU1.workflow_name = "n1"
    ∧ recDemoU2.url = "u2" ∧ recDemoU2.workflow_name = "n2" :=
  ⟨writeRunning_restricted_merge recDemoU2 [recDemoU1] recDemoU1 rfl (by decide),
    rfl, rfl, rfl, rfl⟩

/-- C3 counterexample: a `running` write for an arn whose row was first
inserted with created_at 1000 restamps created_at to the second event's
start time 2000, so created_at is not fixed at first insert. -/
theorem created_at_fixed_counterexample :
    msgDemoA.workflow_start_time = 1000
    ∧ (findExecution demoArn
        (writeExecutionViaTransaction msgDemoB 6 none none none
          (writeExecutionViaTransaction msgDemoA 5 none none none []))).map
        ExecutionRecord.created_at = some 2000
    ∧ (2000 : Nat) ≠ 1000 :=
  ⟨rfl, by decide, by decide⟩

/-- C3 amended: whenever a write for an arn conflicts with an existing
row, the row's created_at afterwards equals the incoming event's workflow
start time — created_at is restamped on every write, not fixed at first
insert. -/
theorem created_at_restamped_on_conflict (msg : CumulusMessage) (now : Nat)
    (aid cid pid : Option Nat) (table : List ExecutionRecord)
    (r : ExecutionRecord)
    (hfind : findExecution (buildExecutionArn msg.state_machine msg.execution_name)
      table = some r) :
    ∃ r2,
      findExecution (buildExecutionArn msg.state_machine msg.execution_name)
        (writeExecutionViaTransaction msg now aid cid pid table) = some r2
      ∧ r2.created_at = msg.workflow_start_time := by
  by_cases hrun : msg.status = "running"
  · refine ⟨mergeRunning r (buildExecutionRecord msg now aid cid pid), ?_, rfl⟩
    rw [writeExecutionViaTransaction_running msg now aid cid pid table hrun]
    exact findExecution_upsertExec
      (fun existing => mergeRunning existing (buildExecutionRecord msg now aid cid pid))
      (buildExecutionRecord msg now aid cid pid) table r
      (findExecution_arn _ table r hfind) hfind
  · refine ⟨buildExecutionRecord msg now aid cid pid, ?_, rfl⟩
    rw [writeExecutionViaTransaction_notRunning msg now aid cid pid table hrun]
    exact findExecution_upsertExec
      (fun _ => buildExecutionRecord msg now aid cid pid)
      (buildExecutionRecord msg now aid cid pid) table r rfl hfind

/-- C3 amended witness: the second demo write restamps created_at to the
incoming event's start time 2000. -/
theorem created_at_restamped_on_conflict_witness :
    (∃ r2,
      findExecution (buildExecutionArn msgDemoB.state_machine msgDemoB.execution_name)
        (writeExecutionViaTransaction msgDemoB 6 none none none
          (writeExecutionViaTransaction msgDemoA 5 none none none [])) = some r2
      ∧ r2.created_at = msgDemoB.workflow_start_time)
    ∧ msgDemoB.workflow_start_time = 2000 :=
  ⟨created_at_restamped_on_conflict msgDemoB 6 none none none
    (writeExecutionViaTransaction msgDemoA 5 none none none [])
    (buildExecutionRecord msgDemoA 5 none none none) (by decide), rfl⟩

/-- C2 counterexample: with the document-store write failing after a
successful relational step, the error is propagated but no relational
row for the arn remains — the relational write does not stay committed,
refuting the claim's "the relational row written in that call still
exists afterward". -/
theorem doc_failure_commit_counterexample :
    (writeExecution msgDemoA 5 none none none none (some "doc-error") []).result
      = Except.error "doc-error"
    ∧ findExecution demoArn
        (writeExecution msgDemoA 5 none none none none (some "doc-error") []).rds
      = none :=
  ⟨rfl, rfl⟩

/-- C2 amended: the document-store write runs after the relational step
inside the same relational transaction; when it fails, the writer
propagates the document-store error and the transaction rolls back, so
the relational table is exactly as before the call (the row written in
that call does not persist). -/
theorem writeExecution_doc_failure_rolls_back (msg : CumulusMessage) (now : Nat)
    (aid cid pid : Option Nat) (e : String) (table : List ExecutionRecord) :
    (writeExecution msg now aid cid pid none (some e) table).result
      = Except.error e
    ∧ (writeExecution msg now aid cid pid none (some e) table).rds = table
    ∧ (writeExecution msg now aid cid pid none (some e) table).docStoreCalls = 1 :=
  ⟨rfl, rfl, rfl⟩

/-- C5: when the relational transaction fails, the document-store
collaborator is never invoked (zero calls), the relational table is
rolled back to its pre-call state — in particular no row for the arn
exists when none existed before — and the relational error is
propagated. -/
theorem writeExecution_rds_failure_atomicity (msg : CumulusMessage) (now : Nat)
    (aid cid pid : Option Nat) (e : String) (docStoreFailure : Option String)
    (table : List ExecutionRecord)
    (hnone : findExecution (buildExecutionArn msg.state_machine msg.execution_name)
      table = none) :
    (writeExecution msg now aid cid pid (some e) docStoreFailure table).docStoreCalls = 0
    ∧ (writeExecution msg now aid cid pid (some e) docStoreFailure table).rds = table
    ∧ findExecution (buildExecutionArn msg.state_machine msg.execution_name)
        (writeExecution msg now aid cid pid (some e) docStoreFailure table).rds = none
    ∧ (writeExecution msg now aid cid pid (some e) docStoreFailure table).result
        = Except.error e :=
  ⟨rfl, rfl, hnone, rfl⟩

/-- C5 witness: a failing relational transaction on an empty table leaves
no row for the demo arn, zero document-store calls, and the relational
error propagated. -/
theorem writeExecution_rds_failure_atomicity_witness :
    (writeExecution msgDemoA 5 none none none (some "rds-error") none []).docStoreCalls = 0
    ∧ (writeExecution msgDemoA 5 none none none (some "rds-error") none []).rds = []
    ∧ findExecution (buildExecutionArn msgDemoA.state_machine msgDemoA.execution_name)
        (writeExecution msgDemoA 5 none none none (some "rds-error") none []).rds = none
    ∧ (writeExecution msgDemoA 5 none none none (some "rds-error") none []).result
        = Except.error "rds-error" :=
  writeExecution_rds_failure_atomicity msgDemoA 5 none none none "rds-error" none [] rfl

/-- C8: the built record places the event payload in original_payload and
leaves final_payload absent when the status is the non-terminal
`running`, places it in final_payload and leaves original_payload absent
for any other status, and never sets both. -/
theorem buildExecutionRecord_payload_placement (msg : CumulusMessage) (now : Nat)
    (aid cid pid : Option Nat) :
    (msg.status = "running" →
      (buildExecutionRecord msg now aid cid pid).original_payload = some msg.payload
      ∧ (buildExecutionRecord msg now aid cid pid).final_payload = none)
    ∧ (msg.status ≠ "running" →
      (buildExecutionRecord msg now aid cid pid).final_payload = some msg.payload
      ∧ (buildExecutionRecord msg now aid cid pid).original_payload = none)
    ∧ ¬((buildExecutionRecord msg now aid cid pid).original_payload.isSome
      ∧ (buildExecutionRecord msg now aid cid pid).final_payload.isSome) := by
  by_cases h : msg.status = "running" <;>
    simp [buildExecutionRecord, h]

/-- C9: the built record's duration is (stop − start) in whole seconds
when a stop time is present and 0 otherwise; concretely, start 1000 ms
and stop 6000 ms yield duration 5. -/
theorem buildExecutionRecord_duration (msg : CumulusMessage) (now : Nat)
    (aid cid pid : Option Nat) :
    (∀ stopTime, msg.workflow_stop_time = some stopTime →
      (buildExecutionRecord msg now aid cid pid).duration
        = (stopTime - msg.workflow_start_time) / 1000)
    ∧ (msg.workflow_stop_time = none →
      (buildExecutionRecord msg now aid cid pid).duration = 0)
    ∧ (buildExecutionRecord msgDemoStop 7 none none none).duration = 5 := by
  refine ⟨?_, ?_, by decide⟩
  · intro stopTime hstop
    simp [buildExecutionRecord, hstop]
  · intro hstop
    simp [buildExecutionRecord, hstop]

theorem resolveRequired_ok_of (declared : Option String)
    (lookup : String → Option Nat)
    (h : ¬ ∃ k, declared = some k ∧ lookup k = none) :
    resolveRequired declared lookup = .ok (declared.bind lookup) := by
  rcases declared with _ | k
  · rfl
  · rcases hk : lookup k with _ | c
    · exact absurd ⟨k, rfl, hk⟩ h
    · simp [resolveRequired, hk, Option.bind]

/-- C6: with the migration boundary configured, the requirement gate
fails with an unmet-requirements error exactly when the event's schema
version is strictly below the boundary or a reference declared present
(collection, async-operation, parent-execution) failed to resolve;
otherwise it returns the resolved surrogate ids, a reference absent
from the event staying absent rather than erroring. -/
theorem gate_unmet_requirements_iff (boundary messageVersion : SemVer)
    (mcnv : Option (String × String)) (collectionCumulusId : Option Nat)
    (asyncOperationId parentExecutionArnRef : Option String)
    (asyncOperationLookup parentExecutionLookup : String → Option Nat) :
    ((∃ s, getWriteExecutionRequirements (some boundary) messageVersion mcnv
        collectionCumulusId asyncOperationId parentExecutionArnRef
        asyncOperationLookup parentExecutionLookup
        = .error (.unmetRequirements s))
      ↔ (semVerLt messageVersion boundary = true
        ∨ (mcnv.isSome = true ∧ collectionCumulusId = none)
        ∨ (∃ a, asyncOperationId = some a ∧ asyncOperationLookup a = none)
        ∨ (∃ p, parentExecutionArnRef = some p ∧ parentExecutionLookup p = none)))
    ∧ (¬(semVerLt messageVersion boundary = true
        ∨ (mcnv.isSome = true ∧ collectionCumulusId = none)
        ∨ (∃ a, asyncOperationId = some a ∧ asyncOperationLookup a = none)
        ∨ (∃ p, parentExecutionArnRef = some p ∧ parentExecutionLookup p = none)) →
      getWriteExecutionRequirements (some boundary) messageVersion mcnv
        collectionCumulusId asyncOperationId parentExecutionArnRef
        asyncOperationLookup parentExecutionLookup
        = .ok (asyncOperationId.bind asyncOperationLookup,
            parentExecutionArnRef.bind parentExecutionLookup)) := by
  by_cases hv : semVerLt messageVersion boundary = true
  · have hg : getWriteExecutionRequirements (some boundary) messageVersion mcnv
        collectionCumulusId asyncOperationId parentExecutionArnRef
        asyncOperationLookup parentExecutionLookup
        = .error (.unmetRequirements "pre-migration event") := by
      simp [getWriteExecutionRequirements, hv]
    rw [hg]
    exact ⟨⟨fun _ => Or.inl hv, fun _ => ⟨_, rfl⟩⟩,
      fun hA => absurd (Or.inl hv) hA⟩
  · by_cases hcol : (mcnv.isSome && collectionCumulusId.isNone) = true
    · have hg : getWriteExecutionRequirements (some boundary) messageVersion mcnv
          collectionCumulusId asyncOperationId parentExecutionArnRef
          asyncOperationLookup parentExecutionLookup
          = .error (.unmetRequirements "collection") := by
        simp [getWriteExecutionRequirements, hv, hcol]
      rw [Bool.and_eq_true] at hcol
      have hc2 : collectionCumulusId = none :=
        Option.isNone_iff_eq_none.mp hcol.2
      rw [hg]
      exact ⟨⟨fun _ => Or.inr (Or.inl ⟨hcol.1, hc2⟩), fun _ => ⟨_, rfl⟩⟩,
        fun hA => absurd (Or.inr (Or.inl ⟨hcol.1, hc2⟩)) hA⟩
    · by_cases hasync : ∃ k, asyncOperationId = some k ∧ asyncOperationLookup k = none
      · obtain ⟨k, hk, hko⟩ := hasync
        have hg : getWriteExecutionRequirements (some boundary) messageVersion mcnv
            collectionCumulusId asyncOperationId parentExecutionArnRef
            asyncOperationLookup parentExecutionLookup
            = .error (.unmetRequirements k) := by
          simp [getWriteExecutionRequirements, hv, hcol, hk, resolveRequired, hko]
        rw [hg]
        exact ⟨⟨fun _ => Or.inr (Or.inr (Or.inl ⟨k, hk, hko⟩)), fun _ => ⟨_, rfl⟩⟩,
          fun hA => absurd (Or.inr (Or.inr (Or.inl ⟨k, hk, hko⟩))) hA⟩
      · have hra : resolveRequired asyncOperationId asyncOperationLookup
            = .ok (asyncOperationId.bind asyncOperationLookup) :=
          resolveRequired_ok_of _ _ hasync
        by_cases hpar : ∃ k, parentExecutionArnRef = some k ∧ parentExecutionLookup k = none
        · obtain ⟨k, hk, hko⟩ := hpar
          have hrp2 : resolveRequired parentExecutionArnRef parentExecutionLookup
              = .error (.unmetRequirements k) := by
            rw [hk]
            simp [resolveRequired, hko]
          have hg : getWriteExecutionRequirements (some boundary) messageVersion mcnv
              collectionCumulusId asyncOperationId parentExecutionArnRef
              asyncOperationLookup parentExecutionLookup
              = .error (.unmetRequirements k) := by
            simp [getWriteExecutionRequirements, hv, hcol, hra, hrp2]
          rw [hg]
          exact ⟨⟨fun _ => Or.inr (Or.inr (Or.inr ⟨k, hk, hko⟩)), fun _ => ⟨_, rfl⟩⟩,
            fun hA => absurd (Or.inr (Or.inr (Or.inr ⟨k, hk, hko⟩))) hA⟩
        · have hrp : resolveRequired parentExecutionArnRef parentExecutionLookup
              = .ok (parentExecutionArnRef.bind parentExecutionLookup) :=
            resolveRequired_ok_of _ _ hpar
          have hg : getWriteExecutionRequirements (some boundary) messageVersion mcnv
              collectionCumulusId asyncOperationId parentExecutionArnRef
              asyncOperationLookup parentExecutionLookup
              = .ok (asyncOperationId.bind asyncOperationLookup,
                  parentExecutionArnRef.bind parentExecutionLookup) := by
            simp [getWriteExecutionRequirements, hv, hcol, hra, hrp]
          rw [hg]
          constructor
          · constructor
            · rintro ⟨s, hs⟩
              simp at hs
            · rintro (h | h | h | h)
              · exact absurd h hv
              · refine absurd ?_ hcol
                rw [Bool.and_eq_true]
                exact ⟨h.1, Option.isNone_iff_eq_none.mpr h.2⟩
              · exact absurd h hasync
              · exact absurd h hpar
          · intro _
            rfl

theorem writeRulesAux_fst (items : List (Rule × Option String))
    (rdsRules : List String) :
    (writeRulesAux items rdsRules).1
      = rdsRules ++ items.filterMap (fun item => match item.2 with
          | some _ => none
          | none => some item.1.name) := by
  induction items generalizing rdsRules with
  | nil => simp [writeRulesAux]
  | cons item rest ih =>
    obtain ⟨rule, failure⟩ := item
    rcases failure with _ | e <;>
      simp [writeRulesAux, writeRuleTx, ih, List.filterMap_cons]

theorem writeRulesAux_snd (items : List (Rule × Option String))
    (rdsRules : List String) :
    (writeRulesAux items rdsRules).2
      = items.map (fun item => match item.2 with
          | some e => Except.error e
          | none => Except.ok item.1) := by
  induction items generalizing rdsRules with
  | nil => rfl
  | cons item rest ih =>
    obtain ⟨rule, failure⟩ := item
    rcases failure with _ | e <;> simp [writeRulesAux, writeRuleTx, ih]

theorem ruleFailures_map (items : List (Rule × Option String)) :
    ruleFailures (items.map (fun item => match item.2 with
        | some e => Except.error e
        | none => Except.ok item.1))
      = items.filterMap (fun item => item.2) := by
  induction items with
  | nil => rfl
  | cons item rest ih =>
    obtain ⟨rule, failure⟩ := item
    rcases failure with _ | e <;>
      simpa [ruleFailures, List.filterMap_cons] using ih

/-- C7: a batch of dependent rules is processed with no early
termination: the relational table afterwards holds exactly the
non-failing items' rules (each item isolated, a failed item leaving no
trace), and the caller receives the per-item results when all succeed or
a single aggregate error wrapping exactly the failed items' reasons
otherwise. -/
theorem writeRules_batch_isolation (items : List (Rule × Option String))
    (rdsRules : List String) :
    (writeRules items rdsRules).1
      = rdsRules ++ items.filterMap (fun item => match item.2 with
          | some _ => none
          | none => some item.1.name)
    ∧ (writeRules items rdsRules).2
      = (if (items.filterMap (fun item => item.2)).isEmpty
        then Except.ok (items.map (fun item => match item.2 with
          | some e => Except.error e
          | none => Except.ok item.1))
        else Except.error (items.filterMap (fun item => item.2))) := by
  constructor
  · simpa [writeRules] using writeRulesAux_fst items rdsRules
  · have hsnd := writeRulesAux_snd items rdsRules
    have hcond : ruleFailures (writeRulesAux items rdsRules).2
        = items.filterMap (fun item => item.2) := by
      rw [hsnd]
      exact ruleFailures_map items
    simp only [writeRules]
    rw [hcond, hsnd]

/-- C10: `getRecordCumulusId` raises RecordDoesNotExist exactly when no
row matches the where clause, otherwise it returns the matching row's
cumulus_id; `doesRecordExist` returns a boolean that is true exactly
when a matching row exists (and, being boolean-valued, raises nothing
when no record matches). -/
theorem getRecordCumulusId_spec (whereClause : List (String × String))
    (table : String) (rows : List DbRow) :
    ((∃ m, getRecordCumulusId whereClause table rows
        = .error (.recordDoesNotExist m))
      ↔ ∀ row ∈ rows, matchesWhere whereClause row = false)
    ∧ (doesRecordExist whereClause rows = true →
      ∃ row ∈ rows, matchesWhere whereClause row = true
        ∧ getRecordCumulusId whereClause table rows = .ok row.cumulus_id)
    ∧ (doesRecordExist whereClause rows = true
      ↔ ∃ row ∈ rows, matchesWhere whereClause row = true) := by
  rcases h : rows.find? (matchesWhere whereClause) with _ | row
  · have hg : getRecordCumulusId whereClause table rows
        = .error (.recordDoesNotExist table) := by
      simp [getRecordCumulusId, h]
    have hd : doesRecordExist whereClause rows = false := by
      simp [doesRecordExist, isRecordDefined, h]
    refine ⟨⟨fun _ => ?_, fun _ => ⟨table, hg⟩⟩, ?_, ?_⟩
    · intro row hrow
      simpa using List.find?_eq_none.mp h row hrow
    · intro hde
      rw [hd] at hde
      exact absurd hde (by simp)
    · rw [hd]
      constructor
      · intro hfalse
        exact absurd hfalse (by simp)
      · rintro ⟨row, hrow, hmatch⟩
        exact absurd hmatch (by simpa using List.find?_eq_none.mp h row hrow)
  · have hg : getRecordCumulusId whereClause table rows = .ok row.cumulus_id := by
      simp [getRecordCumulusId, h]
    have hd : doesRecordExist whereClause rows = true := by
      simp [doesRecordExist, isRecordDefined, h]
    have hmem : row ∈ rows := List.mem_of_find?_eq_some h
    have hmatch : matchesWhere whereClause row = true := List.find?_some h
    refine ⟨⟨?_, ?_⟩, ?_, ?_⟩
    · rintro ⟨m, hm⟩
      rw [hg] at hm
      exact absurd hm (by simp)
    · intro hall
      rw [hall row hmem] at hmatch
      exact absurd hmatch (by simp)
    · intro _
      exact ⟨row, hmem, hmatch, hg⟩
    · exact ⟨fun _ => ⟨row, hmem, hmatch⟩, fun _ => hd⟩

end Cumulus
